import Mathlib

/-!
Shallow embedding of `virtcontainers/kata_agent.go` (kata runtime agent
client) and proofs about the behaviours its specification describes:
request timeout policy, hostname truncation, ARP-neighbor error
tolerance, memory hot-plug address lists, PID-namespace handling,
agent-session liveness, command-to-process conversion, file-copy
chunking, systemd cgroup path rewriting and the block-volume mount
replacement pass.

Go machine integers are modelled as `Nat` with explicit `% 2 ^ w`
where the code can overflow; Go strings are modelled as Lean `String`
(`List Char` underneath), which coincides with Go's byte strings on
ASCII data; fallible Go functions return `Option`/`Except`.
-/

namespace KataAgent

/-! ### Constants (kata_agent.go, `var` block)

`checkRequestTimeout = 30 * time.Second`, `defaultRequestTimeout = 60 *
time.Second` (in nanoseconds, as Go `time.Duration` counts),
`grpcMaxDataSize = int64(1024 * 1024)`, `maxHostnameLen = 64`. -/

def timeSecond : Nat := 1000000000

def checkRequestTimeout : Nat := 30 * timeSecond

def defaultRequestTimeout : Nat := 60 * timeSecond

def grpcMaxDataSize : Nat := 1024 * 1024

def maxHostnameLen : Nat := 64

/-! ### Request names (kata_agent.go, `const` block of gRPC request names) -/

def grpcCheckRequest : String := "grpc.CheckRequest"

def grpcWaitProcessRequest : String := "grpc.WaitProcessRequest"

def grpcGetOOMEventRequest : String := "grpc.GetOOMEventRequest"

/-- `getReqContext`: timeout assigned to a dispatched request, by request
name.  `none` models a context without timeout (Wait / GetOOMEvent);
`some d` models `context.WithTimeout` with duration `d`. -/
def getReqTimeout (reqName : String) : Option Nat :=
  if reqName = grpcWaitProcessRequest ∨ reqName = grpcGetOOMEventRequest then
    none
  else if reqName = grpcCheckRequest then
    some checkRequestTimeout
  else
    some defaultRequestTimeout

/-! ### Hostname truncation (`startSandbox`) -/

/-- The hostname computation of `startSandbox`:
`if len(hostname) > maxHostnameLen { hostname = hostname[:maxHostnameLen] }`.
Go slices bytes; hostnames are ASCII so characters and bytes coincide. -/
def truncateHostname (hostname : String) : String :=
  if hostname.length > maxHostnameLen then String.mk (hostname.data.take maxHostnameLen)
  else hostname

/-! ### ARP neighbors (`addARPNeighbors`) -/

/-- Outcome of a gRPC call as seen through `grpcStatus.Convert(err).Code()`. -/
inductive GrpcErr where
  | unimplemented : GrpcErr
  | other : Nat → GrpcErr
deriving DecidableEq, Repr

structure ARPNeighbor where
  toIPAddress : String
  device : String
deriving DecidableEq, Repr

/-- `addARPNeighbors`.  `neighs = none` models a nil slice; `sendResult`
is the error (if any) returned by `sendReq` for the
`AddARPNeighborsRequest`.  The guest-reported "unimplemented" failure is
swallowed (success with a warning); every other error is returned. -/
def addARPNeighbors (neighs : Option (List ARPNeighbor))
    (sendResult : Option GrpcErr) : Option GrpcErr :=
  match neighs with
  | some _ =>
    match sendResult with
    | some e => if e = GrpcErr.unimplemented then none else some e
    | none => none
  | none => none

/-! ### Memory hot-plug by probe (`memHotplugByProbe`) -/

def two64 : Nat := 2 ^ 64

/-- `memHotplugByProbe`: returns the `MemHotplugProbeAddr` list carried by
the request, or an error when `memorySectionSizeMB` is zero (checked
before the division `sizeMB / memorySectionSizeMB`).  Each address is
`addr + (index*uint64(memorySectionSizeMB))<<20` in Go's `uint64`
arithmetic (the shift binds tighter than the addition), hence the
explicit `% 2 ^ 64`. -/
def memHotplugByProbe (addr sizeMB memorySectionSizeMB : Nat) :
    Except String (List Nat) :=
  if memorySectionSizeMB = 0 then
    Except.error "memorySectionSizeMB couldn't be zero"
  else
    let numSection := sizeMB / memorySectionSizeMB
    Except.ok ((List.range numSection).map (fun index =>
      (addr + ((index * memorySectionSizeMB) % two64) * 2 ^ 20 % two64) % two64))

/-! ### PID namespace handling (`handlePidNamespace`) -/

/-- OCI / gRPC Linux namespace entry (`grpc.LinuxNamespace`). -/
structure LinuxNamespace where
  type : String
  path : String
deriving DecidableEq, Repr

/-- `specs.PIDNamespace` from the OCI runtime spec. -/
def pidNamespaceType : String := "pid"

/-- `handlePidNamespace` on `grpcSpec.Linux.Namespaces`: scan for the first
PID-type namespace; report sharing when its path is non-empty; remove that
entry from the list either way.  Returns
(`sharedPidNs`, updated namespace list). -/
def handlePidNamespace : List LinuxNamespace → Bool × List LinuxNamespace
  | [] => (false, [])
  | ns :: rest =>
    if ns.type = pidNamespaceType then
      (ns.path != "", rest)
    else
      let r := handlePidNamespace rest
      (r.1, ns :: r.2)

/-! ### Agent session liveness (`connect`, `markDead`, `disconnect`)

The session's mutable fields touched by these methods: the `dead` flag,
the gRPC `client` (a handle, `none` when absent) and the proxy PID from
the agent state.  `connect`'s interaction with the outside world is
captured by an oracle (`proxyAlive` answers the `syscall.Kill(pid, 0)`
probe, `dialResult` the `kataclient.NewAgentClient` dial) and by the
trace of I/O events the call performs. -/

structure AgentState where
  dead : Bool
  client : Option Nat
  proxyPid : Int
deriving DecidableEq, Repr

inductive IOEvent where
  | proxyProbe : Int → IOEvent
  | dial : IOEvent
deriving DecidableEq, Repr

/-- `connect`: fails at once on a dead session; returns at once when a
client already exists; otherwise probes the proxy (when a proxy PID is
recorded) and dials, marking the session dead on a dial failure.
Result: (error if any, new state, I/O events performed). -/
def connect (st : AgentState) (proxyAlive : Bool)
    (dialResult : Except String Nat) :
    Option String × AgentState × List IOEvent :=
  if st.dead then
    (some "Dead agent", st, [])
  else if st.client.isSome then
    (none, st, [])
  else
    let probes : List IOEvent :=
      if 0 < st.proxyPid then [IOEvent.proxyProbe st.proxyPid] else []
    if 0 < st.proxyPid ∧ proxyAlive = false then
      (some "Proxy is not running", st, probes)
    else
      match dialResult with
      | Except.error e => (some e, { st with dead := true }, probes ++ [IOEvent.dial])
      | Except.ok c => (none, { st with client := some c }, probes ++ [IOEvent.dial])

/-- `disconnect` closes and clears the client; it never touches `dead`. -/
def disconnect (st : AgentState) : AgentState :=
  { st with client := none }

/-- `markDead` sets the `dead` flag and disconnects. -/
def markDead (st : AgentState) : AgentState :=
  disconnect { st with dead := true }

/-! ### Go path library (`strings.Split`, `filepath.Clean`, `filepath.Join`)

Modelled at the character-list level: `splitOnChar` is `strings.Split`
with a one-character separator, `joinChar` is `strings.Join`,
`cleanComps` is the lexical element processing of `filepath.Clean` on
Unix. -/

def splitOnChar (sep : Char) : List Char → List (List Char)
  | [] => [[]]
  | c :: cs =>
    if c = sep then [] :: splitOnChar sep cs
    else
      match splitOnChar sep cs with
      | [] => [[c]]
      | g :: gs => (c :: g) :: gs

def joinChar (sep : Char) : List (List Char) → List Char
  | [] => []
  | [x] => x
  | x :: xs => x ++ sep :: joinChar sep xs

/-- `filepath.Clean`'s element loop: drop empty and "." elements; on ".."
pop the previous element unless there is none (keep ".." in a relative
path, drop it at the root of a rooted path). -/
def cleanComps (rooted : Bool) (acc : List (List Char)) :
    List (List Char) → List (List Char)
  | [] => acc.reverse
  | c :: rest =>
    if c = [] ∨ c = ['.'] then cleanComps rooted acc rest
    else if c = ['.', '.'] then
      match acc with
      | [] =>
        if rooted then cleanComps rooted [] rest
        else cleanComps rooted [['.', '.']] rest
      | a :: as =>
        if a = ['.', '.'] then cleanComps rooted (c :: acc) rest
        else cleanComps rooted as rest
    else cleanComps rooted (c :: acc) rest

/-- `filepath.Clean` (Unix). -/
def goFilepathClean (path : String) : String :=
  if path.data = [] then "."
  else
    let rooted := path.data.headD ' ' = '/'
    let out := cleanComps rooted [] (splitOnChar '/' path.data)
    if out = [] then (if rooted then "/" else ".")
    else String.mk ((if rooted then ['/'] else []) ++ joinChar '/' out)

/-- `filepath.Join` (Unix): join the elements from the first non-empty one
with "/" and clean the result; all-empty elements give "". -/
def goFilepathJoin (elems : List String) : String :=
  match elems.dropWhile (fun e => e = "") with
  | [] => ""
  | es => goFilepathClean (String.mk (joinChar '/' (es.map String.data)))

/-! ### Command to process conversion (`cmdToKataProcess`) -/

/-- `strconv.ParseUint(s, 10, 32)`: decimal digits only, no sign, no
underscores, value below `2 ^ 32`; the empty string is rejected. -/
def parseUint32 (s : String) : Option Nat :=
  if s.data ≠ [] ∧ s.data.all (fun c => c.isDigit) then
    let v := s.data.foldl (fun acc c => acc * 10 + (c.toNat - 48)) 0
    if v < 2 ^ 32 then some v else none
  else none

structure EnvVar where
  var : String
  value : String
deriving DecidableEq, Repr

/-- `types.Cmd`, restricted to the fields `cmdToKataProcess` reads. -/
structure Cmd where
  user : String
  primaryGroup : String
  supplementaryGroups : List String
  args : List String
  envs : List EnvVar
  workDir : String
  interactive : Bool
deriving DecidableEq, Repr

structure GrpcUser where
  uid : Nat
  gid : Nat
  additionalGids : List Nat
deriving DecidableEq, Repr

structure KataProcess where
  terminal : Bool
  user : GrpcUser
  args : List String
  env : List String
  cwd : String
deriving DecidableEq, Repr

/-- `cmdEnvsToStringSlice`. -/
def cmdEnvsToStringSlice (ev : List EnvVar) : List String :=
  ev.map (fun e => e.var ++ "=" ++ e.value)

/-- `cmdToKataProcess`: split `cmd.User` on ":" (at most "uid:gid"); parse
the uid; parse the gid from the second field when present; a non-empty
`PrimaryGroup` overrides the gid; parse each supplementary group into the
additional gids. -/
def cmdToKataProcess (cmd : Cmd) : Except String KataProcess :=
  let parsedUser := (splitOnChar ':' cmd.user.data).map String.mk
  if parsedUser.length > 2 then
    Except.error ("cmd.User " ++ cmd.user ++ " format is wrong")
  else
    match parseUint32 (parsedUser.getD 0 "") with
    | none => Except.error "invalid uid"
    | some uid =>
      match (if parsedUser.length > 1 then parseUint32 (parsedUser.getD 1 "") else some 0) with
      | none => Except.error "invalid gid"
      | some gid0 =>
        match (if cmd.primaryGroup ≠ "" then parseUint32 cmd.primaryGroup else some gid0) with
        | none => Except.error "invalid primary group"
        | some gid =>
          match cmd.supplementaryGroups.mapM parseUint32 with
          | none => Except.error "invalid supplementary group"
          | some extraGids =>
            Except.ok
              { terminal := cmd.interactive
                user := { uid := uid, gid := gid, additionalGids := extraGids }
                args := cmd.args
                env := cmdEnvsToStringSlice cmd.envs
                cwd := cmd.workDir }

/-! ### File copy (`copyFile`) -/

/-- The fields of `grpc.CopyFileRequest` that vary across the chunked
calls: the byte offset and the data chunk (`nil` data is the empty
list). -/
structure CopyFileRequest where
  offset : Nat
  data : List Nat
deriving DecidableEq, Repr

/-- The chunking loop of `copyFile`: while bytes remain, send a chunk of
at most `grpcMaxDataSize` bytes at the current offset, then advance the
offset by `grpcMaxDataSize` (as the code does, independent of the size of
the final short chunk). -/
def copyFileLoop (b : List Nat) (offset : Nat) : List CopyFileRequest :=
  if hb0 : b = [] then []
  else
    let bytesToCopy := if b.length > grpcMaxDataSize then grpcMaxDataSize else b.length
    { offset := offset, data := b.take bytesToCopy } ::
      copyFileLoop (b.drop bytesToCopy) (offset + grpcMaxDataSize)
termination_by b.length
decreasing_by
  simp only [List.length_drop]
  have hb : 0 < b.length := List.length_pos.mpr hb0
  have hM : 0 < grpcMaxDataSize := by norm_num [grpcMaxDataSize]
  split
  · omega
  · omega

/-- `copyFile`, restricted to the sequence of `CopyFileRequest`s it sends
for a file whose content is `b`: a zero-byte file is one request with no
data chunk (and zero offset, the Go zero values); otherwise the chunk
loop runs. -/
def copyFileRequests (b : List Nat) : List CopyFileRequest :=
  if b.length = 0 then [{ offset := 0, data := [] }]
  else copyFileLoop b 0

/-! ### Guest spec constraining (`constraintGRPCSpec`) -/

/-- Modelled from the spec: `vccgroups.IsSystemdCgroup` lives in
`virtcontainers/pkg/cgroups`, which is not part of the provided source.
The spec describes the systemd cgroup naming it recognises as the
three-part colon-separated form `slice:prefix:name`. -/
def isSystemdCgroup (cgroupsPath : String) : Bool :=
  (splitOnChar ':' cgroupsPath.data).length == 3

structure Hook where
  path : String
  args : List String
deriving DecidableEq, Repr

structure Hooks where
  prestart : List Hook
  poststart : List Hook
  poststop : List Hook
deriving DecidableEq, Repr

structure LinuxSeccomp where
  defaultAction : String
  syscalls : List String
deriving DecidableEq, Repr

structure LinuxDeviceCgroup where
  allow : Bool
  access : String
deriving DecidableEq, Repr

structure LinuxMemory where
  limit : Int
deriving DecidableEq, Repr

structure LinuxCPU where
  shares : Nat
  quota : Int
  period : Nat
  cpus : String
  mems : String
deriving DecidableEq, Repr

structure LinuxPids where
  limit : Int
deriving DecidableEq, Repr

structure LinuxBlockIO where
  weight : Nat
deriving DecidableEq, Repr

structure LinuxHugepageLimit where
  pagesize : String
  limit : Nat
deriving DecidableEq, Repr

structure LinuxNetwork where
  classID : Nat
deriving DecidableEq, Repr

structure LinuxResources where
  devices : List LinuxDeviceCgroup
  memory : Option LinuxMemory
  cpu : Option LinuxCPU
  pids : Option LinuxPids
  blockIO : Option LinuxBlockIO
  hugepageLimits : List LinuxHugepageLimit
  network : Option LinuxNetwork
deriving DecidableEq, Repr

structure LinuxDevice where
  path : String
  type : String
  major : Int
  minor : Int
deriving DecidableEq, Repr

structure SpecLinux where
  resources : LinuxResources
  cgroupsPath : String
  namespaces : List LinuxNamespace
  seccomp : Option LinuxSeccomp
  devices : List LinuxDevice
deriving DecidableEq, Repr

/-- `grpc.Process`, restricted to the field `constraintGRPCSpec` touches. -/
structure SpecProcess where
  selinuxLabel : String
deriving DecidableEq, Repr

structure Spec where
  hooks : Option Hooks
  process : SpecProcess
  linux : SpecLinux
deriving DecidableEq, Repr

def cgroupNamespaceType : String := "cgroup"

def networkNamespaceType : String := "network"

def vfioPath : String := "/dev/vfio/"

/-- `constraintGRPCSpec`: drop hooks; drop seccomp unless passed; clear
the SELinux label; clear the unsupported resource sections, keeping CPU
with its `Cpus`/`Mems` strings emptied; rewrite a systemd-slice cgroup
path `slice:prefix:name` to `filepath.Join("/", prefix, name)`; drop the
cgroup and network namespaces and empty the paths of the remaining ones;
drop VFIO character devices. -/
def constraintGRPCSpec (grpcSpec : Spec) (passSeccomp : Bool) : Spec :=
  let seccomp := if passSeccomp = false then none else grpcSpec.linux.seccomp
  let selinuxLabel :=
    if grpcSpec.process.selinuxLabel ≠ "" then "" else grpcSpec.process.selinuxLabel
  let cpu :=
    match grpcSpec.linux.resources.cpu with
    | some c => some { c with cpus := "", mems := "" }
    | none => none
  let cgroupsPath :=
    if isSystemdCgroup grpcSpec.linux.cgroupsPath then
      let slice := splitOnChar ':' grpcSpec.linux.cgroupsPath.data
      goFilepathJoin ["/", String.mk (slice.getD 1 []), String.mk (slice.getD 2 [])]
    else grpcSpec.linux.cgroupsPath
  let namespaces := grpcSpec.linux.namespaces.filterMap (fun ns =>
    if ns.type = cgroupNamespaceType ∨ ns.type = networkNamespaceType then none
    else some { ns with path := "" })
  let devices := grpcSpec.linux.devices.filter (fun dev =>
    !(dev.type == "c" && dev.path.startsWith vfioPath))
  { hooks := none
    process := { selinuxLabel := selinuxLabel }
    linux :=
      { resources :=
          { grpcSpec.linux.resources with
            devices := []
            pids := none
            blockIO := none
            hugepageLimits := []
            network := none
            cpu := cpu }
        cgroupsPath := cgroupsPath
        namespaces := namespaces
        seccomp := seccomp
        devices := devices } }

/-! ### Block volume mount replacement (`replaceOCIMountsForStorages`) -/

structure OCIMount where
  source : String
  destination : String
  type : String
  options : List String
deriving DecidableEq, Repr

/-- `grpc.Storage`, restricted to the fields this pass reads or writes. -/
structure Storage where
  driver : String
  source : String
  fstype : String
  mountPoint : String
deriving DecidableEq, Repr

/-- `ociMounts[index].Source = path`. -/
def setMountSource : List OCIMount → Nat → String → List OCIMount
  | [], _, _ => []
  | m :: ms, 0, path => { m with source := path } :: ms
  | m :: ms, j + 1, path => m :: setMountSource ms j path

/-- The outer loop of `replaceOCIMountsForStorages`.  `newSource i dest`
stands for the freshly generated guest path
`filepath.Join(kataGuestSandboxStorageDir(), uuid + "-" + filepath.Base(dest))`
(the uuid is nondeterministic, so path generation is an oracle).  The
inner `for index, m = range ociMounts` loop is modelled by its effect:
on a match at position `j` it breaks with `index = j` after rewriting the
mount source; without a match it leaves `index` at `len(ociMounts) - 1`
when the mount list is non-empty, and untouched when it is empty — so
the `index == len(ociMounts)` check only ever fires on an empty mount
list. -/
def replaceGo (newSource : Nat → String → String) (mounts : List OCIMount)
    (i index : Nat) (acc : List Storage) :
    List Storage → Except String (List OCIMount × List Storage)
  | [] => Except.ok (mounts, acc.reverse)
  | v :: rest =>
    match mounts.findIdx? (fun m => m.destination == v.mountPoint) with
    | some j =>
      let path := newSource i v.mountPoint
      if j == mounts.length then
        Except.error ("OCI mount not found for block volume " ++ v.mountPoint)
      else
        replaceGo newSource (setMountSource mounts j path) (i + 1) j
          ({ v with mountPoint := path } :: acc) rest
    | none =>
      let index2 := if mounts.length = 0 then index else mounts.length - 1
      if index2 == mounts.length then
        Except.error ("OCI mount not found for block volume " ++ v.mountPoint)
      else
        replaceGo newSource mounts (i + 1) index2 (v :: acc) rest

/-- `replaceOCIMountsForStorages` on `spec.Mounts` and the block volume
storage list: returns the updated mount and storage lists, or an error. -/
def replaceOCIMountsForStorages (newSource : Nat → String → String)
    (mounts : List OCIMount) (volumeStorages : List Storage) :
    Except String (List OCIMount × List Storage) :=
  replaceGo newSource mounts 0 0 [] volumeStorages

/-! ## Theorems -/

/-- C7: the health-check request gets the short 30-second timeout,
wait-process and OOM-event requests get no timeout, and every other
request kind gets the default 60-second timeout. -/
theorem getReqTimeout_policy :
    getReqTimeout grpcCheckRequest = some (30 * timeSecond) ∧
    getReqTimeout grpcWaitProcessRequest = none ∧
    getReqTimeout grpcGetOOMEventRequest = none ∧
    ∀ reqName : String,
      reqName ≠ grpcCheckRequest →
      reqName ≠ grpcWaitProcessRequest →
      reqName ≠ grpcGetOOMEventRequest →
      getReqTimeout reqName = some (60 * timeSecond) := by
  refine ⟨by decide, by decide, by decide, fun reqName h1 h2 h3 => ?_⟩
  simp [getReqTimeout, defaultRequestTimeout, h1, h2, h3]

/-- Witness for C7 at a concrete request name. -/
theorem getReqTimeout_policy_witness :
    ("grpc.CreateContainerRequest" ≠ grpcCheckRequest ∧
      "grpc.CreateContainerRequest" ≠ grpcWaitProcessRequest ∧
      "grpc.CreateContainerRequest" ≠ grpcGetOOMEventRequest) ∧
    getReqTimeout "grpc.CreateContainerRequest" = some (60 * timeSecond) :=
  ⟨⟨by decide, by decide, by decide⟩,
    getReqTimeout_policy.2.2.2 "grpc.CreateContainerRequest"
      (by decide) (by decide) (by decide)⟩

/-- C8: a hostname longer than 64 characters is truncated to exactly its
first 64 characters before transmission; a hostname of at most 64
characters is transmitted unchanged. -/
theorem truncateHostname_spec (hostname : String) :
    (hostname.length > maxHostnameLen →
      truncateHostname hostname = String.mk (hostname.data.take 64) ∧
      (truncateHostname hostname).length = 64) ∧
    (hostname.length ≤ maxHostnameLen → truncateHostname hostname = hostname) := by
  constructor
  · intro hlong
    have heq : truncateHostname hostname = String.mk (hostname.data.take 64) := by
      unfold truncateHostname
      rw [if_pos hlong]
      rfl
    refine ⟨heq, ?_⟩
    rw [heq]
    have hlen : (String.mk (hostname.data.take 64)).length =
        (hostname.data.take 64).length := rfl
    have hd : hostname.length = hostname.data.length := rfl
    rw [hlen, List.length_take]
    have h64 : maxHostnameLen = 64 := rfl
    omega
  · intro hshort
    unfold truncateHostname
    rw [if_neg (Nat.not_lt.mpr hshort)]

/-- Witness for C8: a 65-character hostname is cut to its first 64
characters, a short one is unchanged. -/
theorem truncateHostname_spec_witness :
    (String.mk (List.replicate 65 'a')).length > maxHostnameLen ∧
    truncateHostname (String.mk (List.replicate 65 'a')) =
      String.mk ((List.replicate 65 'a').take 64) ∧
    ("foo" : String).length ≤ maxHostnameLen ∧
    truncateHostname "foo" = "foo" :=
  ⟨by decide,
    ((truncateHostname_spec (String.mk (List.replicate 65 'a'))).1 (by decide)).1,
    by decide,
    (truncateHostname_spec "foo").2 (by decide)⟩

/-- C6: for a non-nil neighbor list, `addARPNeighbors` succeeds when the
guest reports the call unimplemented (and when the call succeeds), and
propagates every other guest error. -/
theorem addARPNeighbors_spec (neighs : List ARPNeighbor) (e : GrpcErr) :
    addARPNeighbors (some neighs) (some GrpcErr.unimplemented) = none ∧
    addARPNeighbors (some neighs) none = none ∧
    (e ≠ GrpcErr.unimplemented → addARPNeighbors (some neighs) (some e) = some e) := by
  refine ⟨rfl, rfl, fun he => ?_⟩
  simp [addARPNeighbors, he]

/-- Witness for C6 at a concrete neighbor list and error code. -/
theorem addARPNeighbors_spec_witness :
    GrpcErr.other 2 ≠ GrpcErr.unimplemented ∧
    addARPNeighbors (some [{ toIPAddress := "10.0.0.2", device := "eth0" }])
      (some (GrpcErr.other 2)) = some (GrpcErr.other 2) :=
  ⟨by decide,
    (addARPNeighbors_spec [{ toIPAddress := "10.0.0.2", device := "eth0" }]
      (GrpcErr.other 2)).2.2 (by decide)⟩

/-- C10: with a zero `memorySectionSizeMB` the call fails before the
division is evaluated; with a nonzero one the request carries exactly
`sizeMB / memorySectionSizeMB` addresses spaced
`memorySectionSizeMB * 2 ^ 20` bytes apart starting at `addr` (in
`uint64` arithmetic). -/
theorem memHotplugByProbe_spec (addr sizeMB s : Nat) :
    memHotplugByProbe addr sizeMB 0 =
      Except.error "memorySectionSizeMB couldn't be zero" ∧
    (s ≠ 0 →
      ∃ l, memHotplugByProbe addr sizeMB s = Except.ok l ∧
        l.length = sizeMB / s ∧
        ∀ i (hi : i < l.length),
          l.get ⟨i, hi⟩ = (addr + i * s * 2 ^ 20) % 2 ^ 64) := by
  refine ⟨rfl, fun hs => ?_⟩
  refine ⟨(List.range (sizeMB / s)).map (fun index =>
    (addr + ((index * s) % two64) * 2 ^ 20 % two64) % two64), ?_, ?_, ?_⟩
  · simp [memHotplugByProbe, hs]
  · simp
  · intro i hi
    simp only [List.get_eq_getElem, List.getElem_map, List.getElem_range]
    simp only [two64]
    generalize i * s = a
    have h1 : a * 2 ^ 20 % 2 ^ 64 = a % 2 ^ 64 * 2 ^ 20 % 2 ^ 64 := by
      rw [Nat.mul_mod]
      norm_num
    omega

/-- Witness for C10 at a concrete probe: two sections of 2 MiB each. -/
theorem memHotplugByProbe_spec_witness :
    (2 : ℕ) ≠ 0 ∧
    ∃ l, memHotplugByProbe 4096 4 2 = Except.ok l ∧
      l.length = 4 / 2 ∧
      ∀ i (hi : i < l.length), l.get ⟨i, hi⟩ = (4096 + i * 2 * 2 ^ 20) % 2 ^ 64 :=
  ⟨by decide, (memHotplugByProbe_spec 4096 4 2).2 (by decide)⟩

/-- C3: for a namespace list with exactly one PID entry, the call reports
sharing exactly when that entry's path is non-empty, and the entry is
gone from the resulting list in both cases (the rest of the list is kept
in order, so the result holds no PID entry at all). -/
theorem handlePidNamespace_spec (l1 l2 : List LinuxNamespace) (ns : LinuxNamespace)
    (hns : ns.type = pidNamespaceType)
    (h1 : ∀ x ∈ l1, x.type ≠ pidNamespaceType)
    (h2 : ∀ x ∈ l2, x.type ≠ pidNamespaceType) :
    ((handlePidNamespace (l1 ++ ns :: l2)).1 = true ↔ ns.path ≠ "") ∧
    (handlePidNamespace (l1 ++ ns :: l2)).2 = l1 ++ l2 ∧
    ∀ x ∈ (handlePidNamespace (l1 ++ ns :: l2)).2, x.type ≠ pidNamespaceType := by
  have key : handlePidNamespace (l1 ++ ns :: l2) = (ns.path != "", l1 ++ l2) := by
    induction l1 with
    | nil =>
      simp only [List.nil_append, handlePidNamespace]
      rw [if_pos hns]
    | cons a as ih =>
      have ha : a.type ≠ pidNamespaceType := h1 a (List.mem_cons_self a as)
      have ih2 := ih (fun x hx => h1 x (List.mem_cons_of_mem a hx))
      simp only [List.cons_append, handlePidNamespace]
      rw [if_neg ha, show as.append (ns :: l2) = as ++ ns :: l2 from rfl, ih2]
  rw [key]
  refine ⟨by simp [bne_iff_ne], rfl, fun x hx => ?_⟩
  rcases List.mem_append.mp hx with h | h
  · exact h1 x h
  · exact h2 x h

/-- Witness for C3: a UTS, PID (with path) and IPC namespace list. -/
theorem handlePidNamespace_spec_witness :
    (({ type := "pid", path := "/proc/1/ns/pid" } : LinuxNamespace).type =
        pidNamespaceType ∧
      (∀ x ∈ [({ type := "uts", path := "u" } : LinuxNamespace)],
        x.type ≠ pidNamespaceType) ∧
      (∀ x ∈ [({ type := "ipc", path := "" } : LinuxNamespace)],
        x.type ≠ pidNamespaceType)) ∧
    ((handlePidNamespace [{ type := "uts", path := "u" },
        { type := "pid", path := "/proc/1/ns/pid" },
        { type := "ipc", path := "" }]).1 = true ↔
      ({ type := "pid", path := "/proc/1/ns/pid" } : LinuxNamespace).path ≠ "") ∧
    (handlePidNamespace [{ type := "uts", path := "u" },
        { type := "pid", path := "/proc/1/ns/pid" },
        { type := "ipc", path := "" }]).2 =
      [{ type := "uts", path := "u" }, { type := "ipc", path := "" }] ∧
    ∀ x ∈ (handlePidNamespace [{ type := "uts", path := "u" },
        { type := "pid", path := "/proc/1/ns/pid" },
        { type := "ipc", path := "" }]).2, x.type ≠ pidNamespaceType :=
  ⟨⟨by decide, by decide, by decide⟩,
    handlePidNamespace_spec [{ type := "uts", path := "u" }]
      [{ type := "ipc", path := "" }] { type := "pid", path := "/proc/1/ns/pid" }
      (by decide) (by decide) (by decide)⟩

/-- C4: `connect` on a dead session fails at once with no I/O and no state
change; a dial failure marks the session dead; `connect`, `disconnect`
and `markDead` never clear the dead flag. -/
theorem connect_dead_session_spec :
    (∀ (st : AgentState) (alive : Bool) (d : Except String Nat),
      st.dead = true → connect st alive d = (some "Dead agent", st, [])) ∧
    (∀ (st : AgentState) (alive : Bool) (e : String),
      st.dead = false → st.client = none → ¬(0 < st.proxyPid ∧ alive = false) →
      (connect st alive (Except.error e)).1 = some e ∧
      (connect st alive (Except.error e)).2.1.dead = true) ∧
    (∀ (st : AgentState) (alive : Bool) (d : Except String Nat),
      st.dead = true → (connect st alive d).2.1.dead = true) ∧
    (∀ st : AgentState, (markDead st).dead = true) ∧
    (∀ st : AgentState, (disconnect st).dead = st.dead) := by
  refine ⟨?_, ?_, ?_, fun st => rfl, fun st => rfl⟩
  · intro st alive d hdead
    simp [connect, hdead]
  · intro st alive e hdead hclient hproxy
    simp [connect, hdead, hclient, hproxy]
  · intro st alive d hdead
    simp [connect, hdead]

/-- Witness for C4 at concrete session states: a dead session rejects the
call with no I/O, and a live clientless session turns dead on dial
failure. -/
theorem connect_dead_session_spec_witness :
    (({ dead := true, client := none, proxyPid := 0 } : AgentState).dead = true ∧
      connect { dead := true, client := none, proxyPid := 0 } true (Except.ok 7) =
        (some "Dead agent", { dead := true, client := none, proxyPid := 0 }, [])) ∧
    (({ dead := false, client := none, proxyPid := 0 } : AgentState).dead = false ∧
      ({ dead := false, client := none, proxyPid := 0 } : AgentState).client = none ∧
      (connect { dead := false, client := none, proxyPid := 0 } true
        (Except.error "dial failed")).1 = some "dial failed" ∧
      (connect { dead := false, client := none, proxyPid := 0 } true
        (Except.error "dial failed")).2.1.dead = true) :=
  ⟨⟨rfl, connect_dead_session_spec.1 { dead := true, client := none, proxyPid := 0 }
      true (Except.ok 7) rfl⟩,
    ⟨rfl, rfl,
      (connect_dead_session_spec.2.1 { dead := false, client := none, proxyPid := 0 }
        true "dial failed" rfl rfl (by simp)).1,
      (connect_dead_session_spec.2.1 { dead := false, client := none, proxyPid := 0 }
        true "dial failed" rfl rfl (by simp)).2⟩⟩

/-- C9: `cmdToKataProcess` fails when the `User` field splits into more
than two colon-separated fields; on success the process gid comes from a
non-empty `PrimaryGroup` (overriding any `uid:gid` gid), else from the
gid part of a two-field `User`, else it is zero. -/
theorem cmdToKataProcess_spec (cmd : Cmd) :
    (((splitOnChar ':' cmd.user.data).map String.mk).length > 2 →
      ∃ msg, cmdToKataProcess cmd = Except.error msg) ∧
    ∀ p, cmdToKataProcess cmd = Except.ok p →
      (cmd.primaryGroup ≠ "" → parseUint32 cmd.primaryGroup = some p.user.gid) ∧
      (cmd.primaryGroup = "" →
        ((splitOnChar ':' cmd.user.data).map String.mk).length > 1 →
        parseUint32 (((splitOnChar ':' cmd.user.data).map String.mk).getD 1 "") =
          some p.user.gid) ∧
      (cmd.primaryGroup = "" →
        ¬((splitOnChar ':' cmd.user.data).map String.mk).length > 1 →
        p.user.gid = 0) := by
  constructor
  · intro hlen
    refine ⟨"cmd.User " ++ cmd.user ++ " format is wrong", ?_⟩
    unfold cmdToKataProcess
    rw [if_pos hlen]
  · intro p
    unfold cmdToKataProcess
    dsimp only
    by_cases hl : ((splitOnChar ':' cmd.user.data).map String.mk).length > 2
    · rw [if_pos hl]
      intro hp
      exact Except.noConfusion hp
    · rw [if_neg hl]
      cases huid : parseUint32 (((splitOnChar ':' cmd.user.data).map String.mk).getD 0 "") with
      | none => intro hp; exact Except.noConfusion hp
      | some uid =>
        dsimp only
        cases hgid0 : (if ((splitOnChar ':' cmd.user.data).map String.mk).length > 1 then
            parseUint32 (((splitOnChar ':' cmd.user.data).map String.mk).getD 1 "")
          else some 0) with
        | none => intro hp; exact Except.noConfusion hp
        | some gid0 =>
          dsimp only
          cases hgid : (if cmd.primaryGroup ≠ "" then parseUint32 cmd.primaryGroup
              else some gid0) with
          | none => intro hp; exact Except.noConfusion hp
          | some gid =>
            dsimp only
            cases hextra : cmd.supplementaryGroups.mapM parseUint32 with
            | none => intro hp; exact Except.noConfusion hp
            | some extraGids =>
              dsimp only
              intro hp
              injection hp with hp
              subst hp
              refine ⟨fun hpg => ?_, fun hpg hlen1 => ?_, fun hpg hlen1 => ?_⟩
              · rw [if_pos hpg] at hgid
                simpa using hgid
              · rw [if_neg (by simp [hpg])] at hgid
                rw [if_pos hlen1] at hgid0
                simp only [Option.some.injEq] at hgid
                subst hgid
                simpa using hgid0
              · rw [if_neg (by simp [hpg])] at hgid
                rw [if_neg hlen1] at hgid0
                simp only [Option.some.injEq] at hgid hgid0
                subst hgid
                simp [← hgid0]

/-- Witness for C9 at concrete commands: a three-field `User` fails; a
non-empty `PrimaryGroup` of "7" overrides the gid 5 of `User` "1000:5". -/
theorem cmdToKataProcess_spec_witness :
    (((splitOnChar ':' ("1:2:3" : String).data).map String.mk).length > 2 ∧
      ∃ msg, cmdToKataProcess
        { user := "1:2:3", primaryGroup := "", supplementaryGroups := [],
          args := [], envs := [], workDir := "", interactive := false } =
        Except.error msg) ∧
    cmdToKataProcess
        { user := "1000:5", primaryGroup := "7", supplementaryGroups := [],
          args := ["sh"], envs := [], workDir := "/", interactive := false } =
      Except.ok
        { terminal := false
          user := { uid := 1000, gid := 7, additionalGids := [] }
          args := ["sh"], env := [], cwd := "/" } ∧
    ("7" : String) ≠ "" ∧
    parseUint32 "7" =
      some ({ terminal := false
              user := { uid := 1000, gid := 7, additionalGids := [] }
              args := ["sh"], env := [], cwd := "/" } : KataProcess).user.gid :=
  ⟨⟨by decide,
      (cmdToKataProcess_spec
        { user := "1:2:3", primaryGroup := "", supplementaryGroups := [],
          args := [], envs := [], workDir := "", interactive := false }).1
        (by decide)⟩,
    by rfl,
    by decide,
    ((cmdToKataProcess_spec
        { user := "1000:5", primaryGroup := "7", supplementaryGroups := [],
          args := ["sh"], envs := [], workDir := "/", interactive := false }).2
      { terminal := false
        user := { uid := 1000, gid := 7, additionalGids := [] }
        args := ["sh"], env := [], cwd := "/" } (by rfl)).1 (by decide)⟩

/-- Every request the chunk loop emits carries an offset at least the
starting offset. -/
theorem copyFileLoop_offset_lb (b : List Nat) (offset : Nat) :
    ∀ r ∈ copyFileLoop b offset, offset ≤ r.offset := by
  rw [copyFileLoop]
  split
  · intro r hr
    exact absurd hr (List.not_mem_nil r)
  · dsimp only
    intro r hr
    rcases List.mem_cons.mp hr with h | h
    · subst h
      exact Nat.le_refl _
    · have := copyFileLoop_offset_lb _ _ r h
      omega
termination_by b.length
decreasing_by
  simp only [List.length_drop]
  rename_i hne
  have hb : 0 < b.length := List.length_pos.mpr hne
  have hM : grpcMaxDataSize = 1048576 := rfl
  split
  · omega
  · omega

/-- The chunk loop emits `ceil(len / grpcMaxDataSize)` requests. -/
theorem copyFileLoop_length (b : List Nat) (offset : Nat) :
    (copyFileLoop b offset).length =
      (b.length + grpcMaxDataSize - 1) / grpcMaxDataSize := by
  rw [copyFileLoop]
  split
  · rename_i hbe
    subst hbe
    have hM : grpcMaxDataSize = 1048576 := rfl
    simp only [List.length_nil, hM]
  · rename_i hne
    dsimp only
    simp only [List.length_cons]
    rw [copyFileLoop_length]
    simp only [List.length_drop]
    have hb : 0 < b.length := List.length_pos.mpr hne
    have hM : grpcMaxDataSize = 1048576 := rfl
    rw [hM]
    split
    · omega
    · omega
termination_by b.length
decreasing_by
  simp only [List.length_drop]
  rename_i hne
  have hb : 0 < b.length := List.length_pos.mpr hne
  have hM : grpcMaxDataSize = 1048576 := rfl
  split
  · omega
  · omega

/-- The offsets of the chunk loop's requests strictly increase. -/
theorem copyFileLoop_offsets_sorted (b : List Nat) (offset : Nat) :
    ((copyFileLoop b offset).map CopyFileRequest.offset).Pairwise (· < ·) := by
  rw [copyFileLoop]
  split
  · simp
  · dsimp only
    simp only [List.map_cons, List.pairwise_cons]
    constructor
    · intro x hx
      rcases List.mem_map.mp hx with ⟨r, hr, rfl⟩
      have hlb := copyFileLoop_offset_lb _ _ r hr
      have hM : grpcMaxDataSize = 1048576 := rfl
      omega
    · exact copyFileLoop_offsets_sorted _ _
termination_by b.length
decreasing_by
  simp only [List.length_drop]
  rename_i hne
  have hb : 0 < b.length := List.length_pos.mpr hne
  have hM : grpcMaxDataSize = 1048576 := rfl
  split
  · omega
  · omega

/-- The chunk sizes of the chunk loop's requests sum to the content
length. -/
theorem copyFileLoop_sum (b : List Nat) (offset : Nat) :
    ((copyFileLoop b offset).map (fun r => r.data.length)).sum = b.length := by
  rw [copyFileLoop]
  split
  · rename_i hbe
    subst hbe
    simp
  · rename_i hne
    dsimp only
    simp only [List.map_cons, List.sum_cons]
    rw [copyFileLoop_sum]
    simp only [List.length_take, List.length_drop]
    have hb : 0 < b.length := List.length_pos.mpr hne
    have hM : grpcMaxDataSize = 1048576 := rfl
    split
    · omega
    · omega
termination_by b.length
decreasing_by
  simp only [List.length_drop]
  rename_i hne
  have hb : 0 < b.length := List.length_pos.mpr hne
  have hM : grpcMaxDataSize = 1048576 := rfl
  split
  · omega
  · omega

/-- C2: a zero-byte file is sent as exactly one `CopyFile` call with no
data payload; a file of `N > 0` bytes is sent as `ceil(N / chunkSize)`
calls (chunkSize = 1 MiB) with strictly increasing offsets whose chunk
sizes sum to `N`. -/
theorem copyFile_chunking (b : List Nat) :
    (b.length = 0 → copyFileRequests b = [{ offset := 0, data := [] }]) ∧
    (0 < b.length →
      (copyFileRequests b).length =
        (b.length + grpcMaxDataSize - 1) / grpcMaxDataSize ∧
      ((copyFileRequests b).map CopyFileRequest.offset).Pairwise (· < ·) ∧
      ((copyFileRequests b).map (fun r => r.data.length)).sum = b.length) := by
  constructor
  · intro hz
    unfold copyFileRequests
    rw [if_pos hz]
  · intro hpos
    unfold copyFileRequests
    rw [if_neg (by omega)]
    exact ⟨copyFileLoop_length b 0, copyFileLoop_offsets_sorted b 0,
      copyFileLoop_sum b 0⟩

/-- Witness for C2: the empty file and a three-byte file. -/
theorem copyFile_chunking_witness :
    (([] : List Nat).length = 0 ∧
      copyFileRequests [] = [{ offset := 0, data := [] }]) ∧
    (0 < ([1, 2, 3] : List Nat).length ∧
      (copyFileRequests [1, 2, 3]).length =
        (([1, 2, 3] : List Nat).length + grpcMaxDataSize - 1) / grpcMaxDataSize ∧
      ((copyFileRequests [1, 2, 3]).map CopyFileRequest.offset).Pairwise (· < ·) ∧
      ((copyFileRequests [1, 2, 3]).map (fun r => r.data.length)).sum =
        ([1, 2, 3] : List Nat).length) :=
  ⟨⟨by decide, (copyFile_chunking []).1 (by decide)⟩,
    ⟨by decide, (copyFile_chunking [1, 2, 3]).2 (by decide)⟩⟩

/-- `strings.Split` on a separator-free string yields that string alone. -/
theorem splitOnChar_of_not_mem (sep : Char) (xs : List Char) (h : sep ∉ xs) :
    splitOnChar sep xs = [xs] := by
  induction xs with
  | nil => rfl
  | cons c cs ih =>
    have hc : c ≠ sep := fun hc => h (hc ▸ List.mem_cons_self c cs)
    have hcs : sep ∉ cs := fun hm => h (List.mem_cons_of_mem c hm)
    simp only [splitOnChar]
    rw [if_neg hc, ih hcs]

/-- `strings.Split` peels off a separator-free leading field. -/
theorem splitOnChar_append (sep : Char) (xs ys : List Char) (h : sep ∉ xs) :
    splitOnChar sep (xs ++ sep :: ys) = xs :: splitOnChar sep ys := by
  induction xs with
  | nil =>
    show splitOnChar sep (sep :: ys) = [] :: splitOnChar sep ys
    simp [splitOnChar]
  | cons c cs ih =>
    have hc : c ≠ sep := fun hc => h (hc ▸ List.mem_cons_self c cs)
    have hcs : sep ∉ cs := fun hm => h (List.mem_cons_of_mem c hm)
    simp only [List.cons_append, splitOnChar]
    rw [if_neg hc, show cs.append (sep :: ys) = cs ++ sep :: ys from rfl, ih hcs]

/-- The `filepath.Clean` element loop on an exhausted input returns the
accumulator reversed. -/
theorem cleanComps_base (rooted : Bool) (acc : List (List Char)) :
    cleanComps rooted acc [] = acc.reverse := rfl

/-- The `filepath.Clean` element loop drops an empty element. -/
theorem cleanComps_empty (rooted : Bool) (acc : List (List Char))
    (rest : List (List Char)) :
    cleanComps rooted acc ([] :: rest) = cleanComps rooted acc rest := by
  simp [cleanComps]

/-- The `filepath.Clean` element loop pushes a plain element. -/
theorem cleanComps_push (rooted : Bool) (acc rest : List (List Char))
    (c : List Char) (h0 : c ≠ []) (h1 : c ≠ ['.']) (h2 : c ≠ ['.', '.']) :
    cleanComps rooted acc (c :: rest) = cleanComps rooted (c :: acc) rest := by
  simp only [cleanComps]
  rw [if_neg (by simp [h0, h1]), if_neg h2]

/-- `filepath.Join("/", p, n)` on plain path components `p` and `n` is
`/p/n`. -/
theorem goFilepathJoin_root_pair (p n : String)
    (hps : '/' ∉ p.data) (hp0 : p.data ≠ []) (hp1 : p.data ≠ ['.'])
    (hp2 : p.data ≠ ['.', '.'])
    (hns : '/' ∉ n.data) (hn0 : n.data ≠ []) (hn1 : n.data ≠ ['.'])
    (hn2 : n.data ≠ ['.', '.']) :
    goFilepathJoin ["/", p, n] = "/" ++ p ++ "/" ++ n := by
  have hdw : (["/", p, n] : List String).dropWhile (fun e => e = "") =
      ["/", p, n] := rfl
  unfold goFilepathJoin
  rw [hdw]
  have hjoin : joinChar '/' (List.map String.data ["/", p, n]) =
      '/' :: '/' :: (p.data ++ '/' :: n.data) := rfl
  dsimp only
  rw [hjoin]
  unfold goFilepathClean
  rw [if_neg (by simp)]
  dsimp only
  have hsplit : splitOnChar '/' ('/' :: '/' :: (p.data ++ '/' :: n.data)) =
      [] :: [] :: p.data :: [n.data] := by
    show splitOnChar '/' ([] ++ '/' :: ([] ++ '/' :: (p.data ++ '/' :: n.data))) = _
    rw [splitOnChar_append _ _ _ (List.not_mem_nil _),
      splitOnChar_append _ _ _ (List.not_mem_nil _),
      splitOnChar_append _ _ _ hps,
      splitOnChar_of_not_mem _ _ hns]
  rw [hsplit]
  rw [cleanComps_empty, cleanComps_empty,
    cleanComps_push _ _ _ _ hp0 hp1 hp2,
    cleanComps_push _ _ _ _ hn0 hn1 hn2,
    cleanComps_base]
  rw [if_neg (by simp)]
  apply String.ext
  simp [show joinChar '/' [p.data, n.data] = p.data ++ '/' :: n.data from rfl]

/-- C5: on a guest-bound specification whose cgroups path has the
systemd-slice form `slice:prefix:name` (with plain path components),
`constraintGRPCSpec` rewrites the cgroups path to the plain
filesystem-style path `/prefix/name`. -/
theorem constraintGRPCSpec_systemd_cgroup (grpcSpec : Spec) (passSeccomp : Bool)
    (s p n : String)
    (hs : ':' ∉ s.data)
    (hpc : ':' ∉ p.data) (hps : '/' ∉ p.data)
    (hp0 : p.data ≠ []) (hp1 : p.data ≠ ['.']) (hp2 : p.data ≠ ['.', '.'])
    (hnc : ':' ∉ n.data) (hns : '/' ∉ n.data)
    (hn0 : n.data ≠ []) (hn1 : n.data ≠ ['.']) (hn2 : n.data ≠ ['.', '.'])
    (hpath : grpcSpec.linux.cgroupsPath = s ++ ":" ++ p ++ ":" ++ n) :
    (constraintGRPCSpec grpcSpec passSeccomp).linux.cgroupsPath =
      "/" ++ p ++ "/" ++ n := by
  have hcolon : (":" : String).data = [':'] := rfl
  have hdata : (s ++ ":" ++ p ++ ":" ++ n).data =
      s.data ++ ':' :: (p.data ++ ':' :: n.data) := by
    simp [String.data_append, hcolon]
  have hsplit : splitOnChar ':' (s ++ ":" ++ p ++ ":" ++ n).data =
      [s.data, p.data, n.data] := by
    rw [hdata, splitOnChar_append _ _ _ hs, splitOnChar_append _ _ _ hpc,
      splitOnChar_of_not_mem _ _ hnc]
  have hsys : isSystemdCgroup (s ++ ":" ++ p ++ ":" ++ n) = true := by
    unfold isSystemdCgroup
    rw [hsplit]
    rfl
  unfold constraintGRPCSpec
  dsimp only
  rw [hpath, if_pos hsys, hsplit]
  rw [show ([s.data, p.data, n.data].getD 1 []) = p.data from rfl,
    show ([s.data, p.data, n.data].getD 2 []) = n.data from rfl,
    show String.mk p.data = p from rfl,
    show String.mk n.data = n from rfl]
  exact goFilepathJoin_root_pair p n hps hp0 hp1 hp2 hns hn0 hn1 hn2

/-- Witness for C5: `"system.slice:docker:abc123"` becomes
`"/docker/abc123"`. -/
theorem constraintGRPCSpec_systemd_cgroup_witness :
    (constraintGRPCSpec
      { hooks := none
        process := { selinuxLabel := "" }
        linux :=
          { resources :=
              { devices := [], memory := none, cpu := none, pids := none,
                blockIO := none, hugepageLimits := [], network := none }
            cgroupsPath := "system.slice:docker:abc123"
            namespaces := []
            seccomp := none
            devices := [] } } true).linux.cgroupsPath = "/docker/abc123" :=
  (constraintGRPCSpec_systemd_cgroup _ true "system.slice" "docker" "abc123"
    (by decide) (by decide) (by decide) (by decide) (by decide) (by decide)
    (by decide) (by decide) (by decide) (by decide) (by decide)
    (by decide)).trans (by decide)

/-- C1 (code bug): a block-volume storage whose mount point matches no
OCI mount destination does not make `replaceOCIMountsForStorages` fail
when the mount list is non-empty.  The inner `for index, m = range
ociMounts` loop leaves `index` at `len(ociMounts) - 1` when it completes
without a match, so the `index == len(ociMounts)` check never fires for a
non-empty mount list and the function silently succeeds, leaving mounts
and storages untouched; the "mount not found" error is reachable only
when the specification's mount list is empty. -/
theorem replaceOCIMounts_missing_mount_not_reported :
    replaceOCIMountsForStorages
      (fun _ _ => "/run/kata-containers/sandbox/storage/uuid-b")
      [{ source := "/host/a", destination := "/a", type := "bind", options := [] }]
      [{ driver := "blk", source := "/dev/sda", fstype := "ext4",
         mountPoint := "/b" }] =
    Except.ok
      ([{ source := "/host/a", destination := "/a", type := "bind",
          options := [] }],
       [{ driver := "blk", source := "/dev/sda", fstype := "ext4",
          mountPoint := "/b" }]) ∧
    replaceOCIMountsForStorages
      (fun _ _ => "/run/kata-containers/sandbox/storage/uuid-b") []
      [{ driver := "blk", source := "/dev/sda", fstype := "ext4",
         mountPoint := "/b" }] =
    Except.error "OCI mount not found for block volume /b" :=
  ⟨rfl, rfl⟩

end KataAgent
